import Mathlib

/-!
# Verification of the svelte-virtual-list virtualization engine

Shallow embedding of the pure virtualization utilities of the repository
(`src/lib/utils/virtualList.ts`, `src/lib/utils/heightCalculation.ts`, and the
`scrollToIndex` entry point of `SvelteVirtualList.svelte`), together with
theorems settling the specification claims about them.

Modelling conventions:
* JavaScript `number` values are modelled as rationals (`ℚ`); `Math.floor` /
  `Math.ceil` become `Int.floor` / `Int.ceil`.  Non-finite readings (`NaN`,
  `±∞`) have no rational counterpart; a DOM measurement that throws or returns
  a non-finite value is modelled as `none`.
* A JavaScript `Record<number, number>` height cache is modelled as an
  association list with rational keys; `heightCache[i] ?? estimate` is
  a lookup with default, and a plain truthiness test `!heightCache[i]`
  is "absent or zero" (`ℚ` has no `NaN`).
* Sequential `+=` loops over heights are written as `Finset` sums; rational
  addition is associative and commutative, so the value agrees with the
  source's left-to-right accumulation.
-/

namespace SvelteVirtualList

/-- Scroll direction mode (`SvelteVirtualListMode` in `types.ts`). -/
inductive Mode
  | topToBottom
  | bottomToTop
  deriving DecidableEq, Repr

/-- Result record of `calculateVisibleRange`; the source field `end` is a Lean
keyword and is rendered here as `stop`. -/
structure VisibleRange where
  start : ℤ
  stop : ℤ
  deriving DecidableEq, Repr

/-- `calculateScrollPosition` from `virtualList.ts`: maximum scroll offset,
`max(0, totalHeight - containerHeight)` with `totalHeight =
max(0, ceil(totalItems / gridColumns) * itemHeight)`, and `0` for an empty
list. -/
def calculateScrollPosition (totalItems : ℤ) (itemHeight containerHeight : ℚ)
    (gridColumns : ℤ) : ℚ :=
  if totalItems = 0 then 0
  else
    let totalRows : ℤ := ⌈(totalItems : ℚ) / (gridColumns : ℚ)⌉
    let totalHeight : ℚ := max 0 ((totalRows : ℚ) * itemHeight)
    max 0 (totalHeight - containerHeight)

/-- `calculateVisibleRange` from `virtualList.ts`: maps a scroll offset,
viewport size, and per-row height to the half-open index interval to render,
with a buffer on each side, in both scroll modes. -/
def calculateVisibleRange (scrollTop viewportHeight itemHeight : ℚ)
    (gridColumns totalItems bufferSize : ℤ) (mode : Mode) : VisibleRange :=
  let gridColumns := if gridColumns < 1 then 1 else gridColumns
  let totalRows : ℤ := ⌈(totalItems : ℚ) / (gridColumns : ℚ)⌉
  match mode with
  | .bottomToTop =>
      let visibleRows : ℤ := ⌈viewportHeight / itemHeight⌉ + 1
      let bottomRowIndex : ℤ := totalRows - ⌊scrollTop / itemHeight⌋
      let startRow : ℤ := max 0 (bottomRowIndex - visibleRows - bufferSize)
      let endRow : ℤ := min totalRows (bottomRowIndex + bufferSize)
      ⟨startRow * gridColumns, min totalItems (endRow * gridColumns)⟩
  | .topToBottom =>
      let startRow : ℤ := ⌊scrollTop / itemHeight⌋
      let endRow : ℤ :=
        min totalRows (startRow + ⌈viewportHeight / itemHeight⌉ + 1)
      ⟨max 0 (startRow * gridColumns - bufferSize * gridColumns),
       min totalItems (endRow * gridColumns + bufferSize * gridColumns)⟩

/-- `calculateTransformY` from `virtualList.ts`: pixel translation of the
rendered block of rows. -/
def calculateTransformY (mode : Mode) (totalItems visibleEnd visibleStart : ℤ)
    (itemHeight : ℚ) (gridColumns : ℤ) : ℚ :=
  let startRow : ℤ := ⌊(visibleStart : ℚ) / (gridColumns : ℚ)⌋
  match mode with
  | .bottomToTop =>
      let totalRows : ℤ := ⌈(totalItems : ℚ) / (gridColumns : ℚ)⌉
      let endRow : ℤ := ⌈(visibleEnd : ℚ) / (gridColumns : ℚ)⌉
      ((totalRows - endRow : ℤ) : ℚ) * itemHeight
  | .topToBottom => (startRow : ℚ) * itemHeight

/-- Height cache (`Record<number, number>` in the source): an association list
from numeric keys to measured pixel heights.  JavaScript object keys are
unique; all operations below preserve key uniqueness. -/
abbrev HeightCache := List (ℚ × ℚ)

/-- `heightCache[k]`: the value bound to key `k`, if any (keys are unique, so
the first match is the binding). -/
def lookupHeight : HeightCache → ℚ → Option ℚ
  | [], _ => none
  | (k', v) :: rest, k => if k' = k then some v else lookupHeight rest k

/-- `heightCache[i] ?? calculatedItemHeight`: the cached height of item `i`, or
the current estimate when the entry is absent (`??` fires only on
null/undefined, so a cached `0` is used as-is). -/
def heightOf (heightCache : HeightCache) (calculatedItemHeight : ℚ) (i : ℕ) : ℚ :=
  (lookupHeight heightCache (i : ℚ)).getD calculatedItemHeight

/-- `newHeightCache[itemIndex] = height`: JavaScript assignment on an object —
replace the entry when the key is present, otherwise append it. -/
def setHeight (heightCache : HeightCache) (k v : ℚ) : HeightCache :=
  if (lookupHeight heightCache k).isSome then
    heightCache.map fun p => if p.1 = k then (k, v) else p
  else heightCache ++ [(k, v)]

/-- Truthiness of `newHeightCache[itemIndex]`: present with a non-zero value
(`0` is falsy in JavaScript; `ℚ` has no `NaN`). -/
def truthyAt (heightCache : HeightCache) (k : ℚ) : Bool :=
  match lookupHeight heightCache k with
  | some v => v ≠ 0
  | none => false

/-- The `validElements.forEach` measurement loop of `calculateAverageHeight`:
for the `i`-th valid element, when `!newHeightCache[itemIndex]`, read its
bounding-rect height and store it if the reading is finite and positive.
A reading is `Option ℚ`: `none` models a measurement that throws or returns a
non-finite value (both discarded by the source). -/
def cacheMeasurements (visibleStart : ℚ) :
    List (Option ℚ) → ℕ → HeightCache → HeightCache
  | [], _, heightCache => heightCache
  | el :: rest, i, heightCache =>
      let itemIndex : ℚ := visibleStart + (i : ℚ)
      let heightCache' :=
        if truthyAt heightCache itemIndex then heightCache
        else
          match el with
          | some h => if 0 < h then setHeight heightCache itemIndex h else heightCache
          | none => heightCache
      cacheMeasurements visibleStart rest (i + 1) heightCache'

/-- Result record of `calculateAverageHeight`. -/
structure AverageHeightResult where
  newHeight : ℚ
  newLastMeasuredIndex : ℚ
  updatedHeightCache : HeightCache
  deriving DecidableEq

/-- `calculateAverageHeight` from `virtualList.ts`.  An item element is
`Option (Option ℚ)`: the outer layer models a null slot (dropped by
`filter((el) => el)`), the inner layer a bounding-rect height reading that may
throw or be non-finite (`none`).  `newHeight` is the arithmetic mean of the
valid (positive) cached heights, falling back to `currentItemHeight`. -/
def calculateAverageHeight (itemElements : List (Option (Option ℚ)))
    (visibleRangeStart : ℚ) (heightCache : HeightCache)
    (currentItemHeight : ℚ) : AverageHeightResult :=
  let validElements := itemElements.filterMap id
  if validElements.isEmpty then
    ⟨currentItemHeight, visibleRangeStart, heightCache⟩
  else
    let newHeightCache := cacheMeasurements visibleRangeStart validElements 0 heightCache
    let validHeights := (newHeightCache.map Prod.snd).filter fun h => 0 < h
    ⟨if 0 < validHeights.length then
        validHeights.sum / (validHeights.length : ℚ)
      else currentItemHeight,
     visibleRangeStart, newHeightCache⟩

/-- `calculateAverageHeightDebounced` from `heightCalculation.ts`.  The three
guard clauses return `none` (the source returns `null` without scheduling a
timer).  Otherwise a timer is scheduled; its eventual effect is the inner
value: `some r` means the callback fires `onUpdate r`, `none` means the
callback fires without updating.  The source invokes `calculateAverageHeight`
(a 4-parameter function) with five arguments
`(itemElements, visibleRange, heightCache, lastMeasuredIndex,
calculatedItemHeight)`; JavaScript drops the extra argument, so
`lastMeasuredIndex` is bound to the `currentItemHeight` parameter, which this
embedding reproduces. -/
def calculateAverageHeightDebounced (browser isCalculatingHeight
    heightUpdateTimeoutPending : Bool) (visibleRange : ℚ × ℚ)
    (itemElements : List (Option (Option ℚ))) (heightCache : HeightCache)
    (lastMeasuredIndex calculatedItemHeight : ℚ) :
    Option (Option AverageHeightResult) :=
  if ¬browser ∨ isCalculatingHeight ∨ heightUpdateTimeoutPending then none
  else if visibleRange.1 = lastMeasuredIndex then none
  else
    let r := calculateAverageHeight itemElements visibleRange.1 heightCache
      lastMeasuredIndex
    some (if 1 < |r.newHeight - calculatedItemHeight| then some r else none)

/-- Observable callback events of `processChunked`. -/
inductive ChunkEvent
  | progress (processed : ℤ)
  | complete
  deriving DecidableEq, Repr

/-- `endIdx = Math.min(startIdx + chunkSize, items.length)` inside
`processChunked`'s `processChunk`. -/
def chunkEndIdx (len chunkSize startIdx : ℤ) : ℤ :=
  min (startIdx + chunkSize) len

/-- Unrolling of `processChunked`'s self-rescheduling `processChunk(startIdx)`
up to `fuel` chunk steps, collecting the emitted callback events.  Each step
computes `endIdx`, fires `onProgress(endIdx)`, and either reschedules itself
at `endIdx` (when `endIdx < items.length`) or fires `onComplete()`.  The
source recursion has no termination guard, so the embedding is fuel-indexed:
the events of a run are the union of its prefixes over all fuels. -/
def runChunks (len chunkSize : ℤ) : ℕ → ℤ → List ChunkEvent
  | 0, _ => []
  | fuel + 1, startIdx =>
      let endIdx := chunkEndIdx len chunkSize startIdx
      ChunkEvent.progress endIdx ::
        (if endIdx < len then runChunks len chunkSize fuel endIdx
         else [ChunkEvent.complete])

/-- `processChunked` from `virtualList.ts`: empty input completes immediately
with no progress callback; otherwise the chunk loop starts at index `0`. -/
def processChunked (items : List α) (chunkSize : ℤ) (fuel : ℕ) :
    List ChunkEvent :=
  if items.length = 0 then [ChunkEvent.complete]
  else runChunks (items.length : ℤ) chunkSize fuel 0

/-- The progress values carried by a list of chunk events. -/
def progressValues : List ChunkEvent → List ℤ
  | [] => []
  | ChunkEvent.progress n :: rest => n :: progressValues rest
  | ChunkEvent.complete :: rest => progressValues rest

/-- The `for` loop of `buildBlockSums`, processing `n` remaining indices
starting at `i` with accumulator `sum`: returns the pushed block boundary sums
and the final accumulator. -/
def buildBlockSumsLoop (heightCache : HeightCache) (calculatedItemHeight : ℚ)
    (blockSize : ℕ) : ℕ → ℕ → ℚ → List ℚ × ℚ
  | 0, _, sum => ([], sum)
  | n + 1, i, sum =>
      let sum' := sum + heightOf heightCache calculatedItemHeight i
      let rest := buildBlockSumsLoop heightCache calculatedItemHeight blockSize n
        (i + 1) sum'
      (if (i + 1) % blockSize = 0 then sum' :: rest.1 else rest.1, rest.2)

/-- `buildBlockSums` from `virtualList.ts`: one pass over all `totalItems`
indices summing `heightCache[i] ?? calculatedItemHeight`, pushing the running
total at every `blockSize`-th index, plus a final partial-block entry when
`totalItems` is not a multiple of `blockSize`. -/
def buildBlockSums (heightCache : HeightCache) (calculatedItemHeight : ℚ)
    (totalItems blockSize : ℕ) : List ℚ :=
  let r := buildBlockSumsLoop heightCache calculatedItemHeight blockSize
    totalItems 0 0
  if totalItems % blockSize ≠ 0 then r.1 ++ [r.2] else r.1

/-- `getScrollOffsetForIndex` from `virtualList.ts`: cumulative pixel offset of
the first `idx` items.  Without `blockSums` it is the direct `O(idx)`
summation; with `blockSums` it starts from the completed-block prefix sum
`blockSums[blockIdx - 1]` and sums only the tail of the current block.  An
out-of-range `blockSums` read is modelled as `0` (the claims only exercise
in-range reads); `Math.floor(idx / blockSize)` on a positive `idx` is natural
division. -/
def getScrollOffsetForIndex (heightCache : HeightCache)
    (calculatedItemHeight : ℚ) (idx : ℤ) (blockSums : Option (List ℚ))
    (blockSize : ℕ) : ℚ :=
  if idx ≤ 0 then 0
  else
    match blockSums with
    | none =>
        ∑ i in Finset.range idx.toNat, heightOf heightCache calculatedItemHeight i
    | some bsums =>
        let blockIdx := idx.toNat / blockSize
        let offset := if 0 < blockIdx then bsums.getD (blockIdx - 1) 0 else 0
        offset + ∑ i in Finset.Ico (blockIdx * blockSize) idx.toNat,
          heightOf heightCache calculatedItemHeight i

/-- `scrollToIndex` as exported by `SvelteVirtualList.svelte`: the body is an
unimplemented stub (`// TODO: Implement actual scroll logic`) that only
`console.log`s its three arguments and returns.  It never throws and issues no
scroll command; the `Except` return type records that no error is raised, and
the payload is the logged argument tuple. -/
def scrollToIndex (index : ℚ) (smoothScroll shouldThrowOnBounds : Bool) :
    Except String (ℚ × Bool × Bool) :=
  Except.ok (index, smoothScroll, shouldThrowOnBounds)

/-! ## Range calculator: bounds and closed forms -/

/-- Core bounds for `calculateVisibleRange` with one grid column: for a scroll
offset inside the content (`0 ≤ scrollTop ≤ totalItems * itemHeight`), a
positive item height, a non-negative viewport and buffer, the returned range
satisfies `0 ≤ start ≤ stop ≤ totalItems` in both modes. -/
theorem visibleRange_bounds (scrollTop viewportHeight itemHeight : ℚ)
    (totalItems bufferSize : ℤ) (mode : Mode) (hih : 0 < itemHeight)
    (hvh : 0 ≤ viewportHeight) (hb : 0 ≤ bufferSize) (hT : 0 ≤ totalItems)
    (hsT : 0 ≤ scrollTop) (hsT2 : scrollTop ≤ (totalItems : ℚ) * itemHeight) :
    0 ≤ (calculateVisibleRange scrollTop viewportHeight itemHeight 1 totalItems
        bufferSize mode).start ∧
    (calculateVisibleRange scrollTop viewportHeight itemHeight 1 totalItems
        bufferSize mode).start ≤
      (calculateVisibleRange scrollTop viewportHeight itemHeight 1 totalItems
        bufferSize mode).stop ∧
    (calculateVisibleRange scrollTop viewportHeight itemHeight 1 totalItems
        bufferSize mode).stop ≤ totalItems := by
  have hf0 : 0 ≤ ⌊scrollTop / itemHeight⌋ :=
    Int.floor_nonneg.mpr (div_nonneg hsT hih.le)
  have hfT : ⌊scrollTop / itemHeight⌋ ≤ totalItems := by
    have h1 : scrollTop / itemHeight ≤ (totalItems : ℚ) :=
      (div_le_iff₀ hih).mpr hsT2
    calc ⌊scrollTop / itemHeight⌋ ≤ ⌊(totalItems : ℚ)⌋ := Int.floor_le_floor h1
      _ = totalItems := Int.floor_intCast _
  have hc0 : 0 ≤ ⌈viewportHeight / itemHeight⌉ :=
    Int.ceil_nonneg (div_nonneg hvh hih.le)
  cases mode <;>
    simp only [calculateVisibleRange, show ¬((1 : ℤ) < 1) by omega, if_false,
      Int.cast_one, div_one, Int.ceil_intCast, mul_one, one_mul] <;>
    omega

/-- Closed form of `calculateVisibleRange` in forward mode with one grid
column and a non-negative buffer. -/
theorem visibleRange_forward_closed (scrollTop viewportHeight itemHeight : ℚ)
    (totalItems bufferSize : ℤ) (hb : 0 ≤ bufferSize) :
    calculateVisibleRange scrollTop viewportHeight itemHeight 1 totalItems
        bufferSize Mode.topToBottom =
      ⟨max 0 (⌊scrollTop / itemHeight⌋ - bufferSize),
       min totalItems (⌊scrollTop / itemHeight⌋ + ⌈viewportHeight / itemHeight⌉
        + 1 + bufferSize)⟩ := by
  simp only [calculateVisibleRange, show ¬((1 : ℤ) < 1) by omega, if_false,
    Int.cast_one, div_one, Int.ceil_intCast, mul_one, one_mul,
    VisibleRange.mk.injEq, inf_eq_min, sup_eq_max, true_and, and_true]
  omega

/-- Closed form of `calculateVisibleRange` in reverse mode with one grid
column. -/
theorem visibleRange_reverse_closed (scrollTop viewportHeight itemHeight : ℚ)
    (totalItems bufferSize : ℤ) :
    calculateVisibleRange scrollTop viewportHeight itemHeight 1 totalItems
        bufferSize Mode.bottomToTop =
      ⟨max 0 ((totalItems - ⌊scrollTop / itemHeight⌋) -
          (⌈viewportHeight / itemHeight⌉ + 1) - bufferSize),
       min totalItems ((totalItems - ⌊scrollTop / itemHeight⌋) + bufferSize)⟩ := by
  simp only [calculateVisibleRange, show ¬((1 : ℤ) < 1) by omega, if_false,
    Int.cast_one, div_one, Int.ceil_intCast, mul_one, one_mul,
    VisibleRange.mk.injEq, inf_eq_min, sup_eq_max, true_and, and_true]
  omega


/-! ## Claims C3 - C6: range calculator invariants, closed forms, degenerate
configurations -/

/-- Claim C3, counterexample: the invariant `start ≤ end` fails for a scroll
offset beyond the content: `calculateVisibleRange(scrollTop=10000,
viewportHeight=300, itemHeight=30, totalItems=10, bufferSize=2, forward)`
returns `{start: 331, end: 10}`. -/
theorem claimC3_counterexample :
    ¬ ((calculateVisibleRange 10000 300 30 1 10 2 Mode.topToBottom).start ≤
       (calculateVisibleRange 10000 300 30 1 10 2 Mode.topToBottom).stop) := by
  norm_num [calculateVisibleRange]

/-- Claim C3 (amended): for itemHeight > 0, viewportHeight ≥ 0,
totalItems ≥ 0, bufferSize ≥ 0, either mode, one grid column, and a scroll
offset inside the content (`0 ≤ scrollTop ≤ totalItems * itemHeight`), the
range returned by `calculateVisibleRange` satisfies
`0 ≤ start ≤ end ≤ totalItems`. -/
theorem claimC3_theorem (scrollTop viewportHeight itemHeight : ℚ)
    (totalItems bufferSize : ℤ) (mode : Mode) (hih : 0 < itemHeight)
    (hvh : 0 ≤ viewportHeight) (hb : 0 ≤ bufferSize) (hT : 0 ≤ totalItems)
    (hsT : 0 ≤ scrollTop) (hsT2 : scrollTop ≤ (totalItems : ℚ) * itemHeight) :
    0 ≤ (calculateVisibleRange scrollTop viewportHeight itemHeight 1 totalItems
        bufferSize mode).start ∧
    (calculateVisibleRange scrollTop viewportHeight itemHeight 1 totalItems
        bufferSize mode).start ≤
      (calculateVisibleRange scrollTop viewportHeight itemHeight 1 totalItems
        bufferSize mode).stop ∧
    (calculateVisibleRange scrollTop viewportHeight itemHeight 1 totalItems
        bufferSize mode).stop ≤ totalItems :=
  visibleRange_bounds scrollTop viewportHeight itemHeight totalItems bufferSize
    mode hih hvh hb hT hsT hsT2

/-- Claim C3, witness: the invariant at scrollTop=100, viewportHeight=300,
itemHeight=30, totalItems=100, bufferSize=2, forward mode. -/
theorem claimC3_witness :
    0 ≤ (calculateVisibleRange 100 300 30 1 100 2 Mode.topToBottom).start ∧
    (calculateVisibleRange 100 300 30 1 100 2 Mode.topToBottom).start ≤
      (calculateVisibleRange 100 300 30 1 100 2 Mode.topToBottom).stop ∧
    (calculateVisibleRange 100 300 30 1 100 2 Mode.topToBottom).stop ≤ 100 :=
  claimC3_theorem 100 300 30 100 2 Mode.topToBottom (by norm_num) (by norm_num)
    (by norm_num) (by norm_num) (by norm_num) (by norm_num)

/-- Claim C4: in forward mode with one grid column, for every scrollOffset,
viewportSize, itemHeight > 0, totalItems and bufferSize ≥ 0,
`calculateVisibleRange` returns `[max(0, floor(scrollOffset/itemHeight) -
bufferSize), min(totalItems, floor(scrollOffset/itemHeight) +
ceil(viewportSize/itemHeight) + 1 + bufferSize)]`. -/
theorem claimC4_theorem (scrollTop viewportHeight itemHeight : ℚ)
    (totalItems bufferSize : ℤ) (hih : 0 < itemHeight) (hb : 0 ≤ bufferSize) :
    calculateVisibleRange scrollTop viewportHeight itemHeight 1 totalItems
        bufferSize Mode.topToBottom =
      ⟨max 0 (⌊scrollTop / itemHeight⌋ - bufferSize),
       min totalItems (⌊scrollTop / itemHeight⌋ + ⌈viewportHeight / itemHeight⌉
        + 1 + bufferSize)⟩ :=
  visibleRange_forward_closed scrollTop viewportHeight itemHeight totalItems
    bufferSize hb

/-- Claim C4, witness: the concrete scenario `scrollTop=100,
viewportHeight=300, itemHeight=30, totalItems=100, bufferSize=2` yields
`{start: 1, end: 16}`. -/
theorem claimC4_witness :
    calculateVisibleRange 100 300 30 1 100 2 Mode.topToBottom = ⟨1, 16⟩ :=
  (claimC4_theorem 100 300 30 100 2 (by norm_num) (by norm_num)).trans
    (by norm_num)

/-- Claim C5: in reverse mode with one grid column, for every scrollOffset,
viewportSize, itemHeight > 0, totalItems and bufferSize,
`calculateVisibleRange` returns `[max(0, bottomIndex - visibleCount -
bufferSize), min(totalItems, bottomIndex + bufferSize)]` with
`bottomIndex = totalItems - floor(scrollOffset/itemHeight)` and
`visibleCount = ceil(viewportSize/itemHeight) + 1`. -/
theorem claimC5_theorem (scrollTop viewportHeight itemHeight : ℚ)
    (totalItems bufferSize : ℤ) (hih : 0 < itemHeight) :
    calculateVisibleRange scrollTop viewportHeight itemHeight 1 totalItems
        bufferSize Mode.bottomToTop =
      ⟨max 0 ((totalItems - ⌊scrollTop / itemHeight⌋) -
          (⌈viewportHeight / itemHeight⌉ + 1) - bufferSize),
       min totalItems ((totalItems - ⌊scrollTop / itemHeight⌋) + bufferSize)⟩ :=
  visibleRange_reverse_closed scrollTop viewportHeight itemHeight totalItems
    bufferSize

/-- Claim C5, witness: the concrete scenario `scrollTop=100,
viewportHeight=300, itemHeight=30, totalItems=100, bufferSize=2, reverse`
yields `{start: 84, end: 99}`. -/
theorem claimC5_witness :
    calculateVisibleRange 100 300 30 1 100 2 Mode.bottomToTop = ⟨84, 99⟩ :=
  (claimC5_theorem 100 300 30 100 2 (by norm_num)).trans (by norm_num)

/-- Claim C6, counterexample: with zero items but a non-zero scroll offset,
`calculateVisibleRange(scrollTop=100, viewportHeight=300, itemHeight=30,
totalItems=0, bufferSize=2, forward)` returns `{start: 1, end: 0}`, not the
claimed `{start: 0, end: 0}`. -/
theorem claimC6_counterexample :
    calculateVisibleRange 100 300 30 1 0 2 Mode.topToBottom ≠ ⟨0, 0⟩ := by
  norm_num [calculateVisibleRange]

/-- Claim C6 (amended): for itemHeight > 0, viewportHeight ≥ 0,
bufferSize ≥ 0, totalItems ≥ 0, one grid column, and a scroll offset inside
the content (`0 ≤ scrollTop ≤ totalItems * itemHeight` — with zero items the
only such offset is `0`): `calculateVisibleRange` with `totalItems = 0`
returns `{0, 0}`; `calculateScrollPosition` returns `0` when `totalItems = 0`
and is never negative; and neither index returned by `calculateVisibleRange`
is negative. -/
theorem claimC6_theorem (scrollTop viewportHeight itemHeight containerHeight : ℚ)
    (totalItems bufferSize : ℤ) (mode : Mode) (hih : 0 < itemHeight)
    (hvh : 0 ≤ viewportHeight) (hb : 0 ≤ bufferSize) (hT : 0 ≤ totalItems)
    (hsT : 0 ≤ scrollTop) (hsT2 : scrollTop ≤ (totalItems : ℚ) * itemHeight) :
    (totalItems = 0 → calculateVisibleRange scrollTop viewportHeight itemHeight
        1 totalItems bufferSize mode = ⟨0, 0⟩) ∧
    calculateScrollPosition 0 itemHeight containerHeight 1 = 0 ∧
    0 ≤ calculateScrollPosition totalItems itemHeight containerHeight 1 ∧
    0 ≤ (calculateVisibleRange scrollTop viewportHeight itemHeight 1 totalItems
        bufferSize mode).start ∧
    0 ≤ (calculateVisibleRange scrollTop viewportHeight itemHeight 1 totalItems
        bufferSize mode).stop := by
  obtain ⟨h1, h2, h3⟩ := visibleRange_bounds scrollTop viewportHeight itemHeight
    totalItems bufferSize mode hih hvh hb hT hsT hsT2
  refine ⟨?_, ?_, ?_, h1, le_trans h1 h2⟩
  · intro hT0
    subst hT0
    have hsT0 : scrollTop = 0 := le_antisymm (by simpa using hsT2) hsT
    subst hsT0
    have hc0 : 0 ≤ ⌈viewportHeight / itemHeight⌉ :=
      Int.ceil_nonneg (div_nonneg hvh hih.le)
    cases mode <;>
      simp only [calculateVisibleRange, show ¬((1 : ℤ) < 1) by omega, if_false,
        Int.cast_one, Int.cast_zero, zero_div, div_one, Int.ceil_intCast,
        Int.floor_zero, Int.ceil_zero, mul_one, one_mul, VisibleRange.mk.injEq,
        inf_eq_min, sup_eq_max] <;>
      omega
  · simp [calculateScrollPosition]
  · unfold calculateScrollPosition
    split
    · exact le_refl 0
    · exact le_max_left 0 _

/-- Claim C6, witness: the amended statement at scrollTop=0,
viewportHeight=300, itemHeight=30, containerHeight=300, totalItems=0,
bufferSize=2, forward mode. -/
theorem claimC6_witness :
    (0 = (0 : ℤ) → calculateVisibleRange 0 300 30 1 0 2 Mode.topToBottom
      = ⟨0, 0⟩) ∧
    calculateScrollPosition 0 30 300 1 = 0 ∧
    0 ≤ calculateScrollPosition 0 30 300 1 ∧
    0 ≤ (calculateVisibleRange 0 300 30 1 0 2 Mode.topToBottom).start ∧
    0 ≤ (calculateVisibleRange 0 300 30 1 0 2 Mode.topToBottom).stop :=
  claimC6_theorem 0 300 30 300 0 2 Mode.topToBottom (by norm_num) (by norm_num)
    (by norm_num) (by norm_num) (by norm_num) (by norm_num)



/-! ## Claims C1, C8, C9: scroll-to-index and height estimation -/

/-- Claim C1: evaluation of the code at the failing input.  The exported
`scrollToIndex` is an unimplemented stub: `scrollToIndex(-1,
shouldThrowOnBounds=true)` does not throw (it logs and returns), and
`scrollToIndex(-1, shouldThrowOnBounds=false)` issues no scroll either —
contradicting the specified out-of-range behaviour and the function's own
`@throws` documentation. -/
theorem claimC1_theorem :
    scrollToIndex (-1) true true = Except.ok (-1, true, true) ∧
    scrollToIndex (-1) true false = Except.ok (-1, true, false) :=
  ⟨rfl, rfl⟩

/-- Claim C8: evaluation of the code at the failing input.  With no valid
elements, an empty cache, `lastMeasuredIndex = -1` and current estimate `40`,
`calculateAverageHeightDebounced` delivers `newHeight = -1` to `onUpdate` —
not finite-and-positive as claimed — because the source's stale five-argument
call binds `lastMeasuredIndex` to `calculateAverageHeight`'s
`currentItemHeight` parameter. -/
theorem claimC8_theorem :
    calculateAverageHeightDebounced true false false (0, 0) [] [] (-1) 40 =
      some (some ⟨-1, 0, []⟩) ∧ ¬ (0 < (-1 : ℚ)) := by
  constructor
  · norm_num [calculateAverageHeightDebounced, calculateAverageHeight]
  · norm_num

/-- Claim C9: when the guard clauses pass (browser environment, no calculation
in progress, no pending timeout, visible start differs from the last measured
index), the fired callback invokes `onUpdate` if and only if the newly
computed height differs from the current estimate by more than 1 pixel. -/
theorem claimC9_theorem (browser isCalculatingHeight
    heightUpdateTimeoutPending : Bool) (visibleRange : ℚ × ℚ)
    (itemElements : List (Option (Option ℚ))) (heightCache : HeightCache)
    (lastMeasuredIndex calculatedItemHeight : ℚ)
    (hbr : browser = true) (hic : isCalculatingHeight = false)
    (hto : heightUpdateTimeoutPending = false)
    (hidx : visibleRange.1 ≠ lastMeasuredIndex) :
    (calculateAverageHeightDebounced browser isCalculatingHeight
        heightUpdateTimeoutPending visibleRange itemElements heightCache
        lastMeasuredIndex calculatedItemHeight =
      some (some (calculateAverageHeight itemElements visibleRange.1
        heightCache lastMeasuredIndex)) ↔
      1 < |(calculateAverageHeight itemElements visibleRange.1 heightCache
        lastMeasuredIndex).newHeight - calculatedItemHeight|) ∧
    (calculateAverageHeightDebounced browser isCalculatingHeight
        heightUpdateTimeoutPending visibleRange itemElements heightCache
        lastMeasuredIndex calculatedItemHeight = some none ↔
      ¬ 1 < |(calculateAverageHeight itemElements visibleRange.1 heightCache
        lastMeasuredIndex).newHeight - calculatedItemHeight|) := by
  subst hbr hic hto
  unfold calculateAverageHeightDebounced
  rw [if_neg (by simp), if_neg hidx]
  by_cases h : 1 < |(calculateAverageHeight itemElements visibleRange.1
      heightCache lastMeasuredIndex).newHeight - calculatedItemHeight|
  · simp [h]
  · simp [h]

/-- Claim C9, witness: with current estimate 40, measured heights
`[30, 50.4]` (mean 40.2) do not trigger an update, `[30, 52]` (mean 41,
differing by exactly 1) do not trigger an update, and `[30, 53]`
(mean 41.5) do. -/
theorem claimC9_witness :
    calculateAverageHeightDebounced true false false (0, 0)
        [some (some 30), some (some (252 / 5))] [] (-1) 40 = some none ∧
    calculateAverageHeightDebounced true false false (0, 0)
        [some (some 30), some (some 52)] [] (-1) 40 = some none ∧
    calculateAverageHeightDebounced true false false (0, 0)
        [some (some 30), some (some 53)] [] (-1) 40 =
      some (some (calculateAverageHeight [some (some 30), some (some 53)] 0 []
        (-1))) :=
  ⟨(claimC9_theorem true false false (0, 0) [some (some 30),
      some (some (252 / 5))] [] (-1) 40 rfl rfl rfl (by norm_num)).2.mpr
      (by norm_num [calculateAverageHeight, cacheMeasurements, truthyAt,
        setHeight, lookupHeight, heightOf, List.filterMap, abs_le, lt_abs]),
   (claimC9_theorem true false false (0, 0) [some (some 30), some (some 52)]
      [] (-1) 40 rfl rfl rfl (by norm_num)).2.mpr
      (by norm_num [calculateAverageHeight, cacheMeasurements, truthyAt,
        setHeight, lookupHeight, heightOf, List.filterMap, abs_le, lt_abs]),
   (claimC9_theorem true false false (0, 0) [some (some 30), some (some 53)]
      [] (-1) 40 rfl rfl rfl (by norm_num)).1.mpr
      (by norm_num [calculateAverageHeight, cacheMeasurements, truthyAt,
        setHeight, lookupHeight, heightOf, List.filterMap, abs_le, lt_abs])⟩


/-! ## Claims C7, C10: chunked processing -/

/-- With a non-positive chunk size, no unrolling of the chunk loop from a
start index strictly inside the items ever reaches `onComplete`. -/
theorem complete_not_mem_runChunks (len chunkSize : ℤ) (hc : chunkSize ≤ 0) :
    ∀ (fuel : ℕ) (startIdx : ℤ), startIdx < len →
      ChunkEvent.complete ∉ runChunks len chunkSize fuel startIdx := by
  intro fuel
  induction fuel with
  | zero => intro s _ h; simp [runChunks] at h
  | succ n ih =>
      intro s hs
      have he : chunkEndIdx len chunkSize s < len := by
        simp only [chunkEndIdx]
        omega
      simp only [runChunks, if_pos he, List.mem_cons]
      rintro (h | h)
      · exact ChunkEvent.noConfusion h
      · exact ih _ he h

/-- For a chunk size `≥ 1` and enough fuel, the chunk loop from a start index
inside the items emits a strictly increasing progress trace ending at `len`,
of length `⌈(len - startIdx) / chunkSize⌉`, followed by exactly one
completion event. -/
theorem runChunks_spec (len chunkSize : ℤ) (hc : 1 ≤ chunkSize) :
    ∀ (fuel : ℕ) (s : ℤ), 0 ≤ s → s < len → (len - s).toNat ≤ fuel →
    ∃ ps : List ℤ,
      runChunks len chunkSize fuel s =
        ps.map ChunkEvent.progress ++ [ChunkEvent.complete] ∧
      List.Chain' (· < ·) ps ∧ (∀ p ∈ ps, s < p) ∧
      ps.getLast? = some len ∧
      ps.length = ((len - s).toNat + chunkSize.toNat - 1) / chunkSize.toNat := by
  intro fuel
  induction fuel with
  | zero => intro s _ hs hf; omega
  | succ n ih =>
      intro s hs0 hs hf
      by_cases he : chunkEndIdx len chunkSize s < len
      · have heq : chunkEndIdx len chunkSize s = s + chunkSize := by
          simp only [chunkEndIdx] at he ⊢
          omega
        obtain ⟨ps, hrun, hchain, hgt, hlast, hlen⟩ :=
          ih (s + chunkSize) (by omega) (by simp only [chunkEndIdx] at he; omega)
            (by simp only [chunkEndIdx] at he; omega)
        have he' : s + chunkSize < len := heq ▸ he
        refine ⟨(s + chunkSize) :: ps, ?_, ?_, ?_, ?_, ?_⟩
        · simp only [runChunks, heq, if_pos he', hrun, List.map_cons,
            List.cons_append]
        · exact List.chain'_cons'.mpr
            ⟨fun y hy => hgt y (List.mem_of_mem_head? hy), hchain⟩
        · intro p hp
          rcases List.mem_cons.mp hp with h | h
          · omega
          · have := hgt p h; omega
        · cases ps with
          | nil => simp at hlast
          | cons q qs => simpa [List.getLast?_cons_cons] using hlast
        · have hk : 0 < chunkSize.toNat := by omega
          have h1 : (len - s).toNat + chunkSize.toNat - 1 =
              ((len - (s + chunkSize)).toNat + chunkSize.toNat - 1) +
                chunkSize.toNat := by
            simp only [chunkEndIdx] at he
            omega
          simp only [List.length_cons, hlen, h1, Nat.add_div_right _ hk]
      · have heq : chunkEndIdx len chunkSize s = len := by
          simp only [chunkEndIdx] at he ⊢
          omega
        refine ⟨[len], ?_, ?_, ?_, ?_, ?_⟩
        · simp [runChunks, if_neg he, heq]
        · simp
        · intro p hp
          simp only [List.mem_singleton] at hp
          omega
        · simp
        · have hr1 : 1 ≤ (len - s).toNat := by omega
          have hr2 : (len - s).toNat ≤ chunkSize.toNat := by
            simp only [chunkEndIdx] at he
            omega
          simp only [List.length_singleton]
          exact (Nat.div_eq_of_lt_le (by omega) (by omega)).symm

/-- Claim C10, counterexample: with `chunkSize = -1`, `items.length = 1` and
`startIdx = 0` the chunk step computes `endIdx = min(0 + (-1), 1) = -1`,
which is *not* equal to `startIdx` as the claim states (it is `≤ startIdx`). -/
theorem claimC10_counterexample :
    chunkEndIdx 1 (-1) 0 = -1 ∧ chunkEndIdx 1 (-1) 0 ≠ 0 := by
  norm_num [chunkEndIdx]

/-- Claim C10 (amended): for every non-empty items array and every
`chunkSize ≤ 0`, each chunk step computes
`endIdx = min(startIdx + chunkSize, items.length) ≤ startIdx` (a
non-increasing progress count) and stays strictly below `items.length`, so it
reschedules itself forever and `onComplete` is never called. -/
theorem claimC10_theorem {α : Type} (items : List α) (chunkSize : ℤ)
    (hc : chunkSize ≤ 0) (hne : items ≠ []) :
    (∀ startIdx : ℤ, startIdx < (items.length : ℤ) →
      chunkEndIdx (items.length : ℤ) chunkSize startIdx ≤ startIdx ∧
      chunkEndIdx (items.length : ℤ) chunkSize startIdx <
        (items.length : ℤ)) ∧
    ∀ fuel : ℕ, ChunkEvent.complete ∉ processChunked items chunkSize fuel := by
  have hlen : 0 < items.length := List.length_pos.mpr hne
  constructor
  · intro s hs
    simp only [chunkEndIdx]
    omega
  · intro fuel
    simp only [processChunked, if_neg (by omega : ¬items.length = 0)]
    exact complete_not_mem_runChunks _ _ hc fuel 0 (by exact_mod_cast hlen)

/-- Claim C10, witness: the amended statement at `items = [0]`,
`chunkSize = 0`. -/
theorem claimC10_witness :
    (∀ startIdx : ℤ, startIdx < ((List.length [(0 : ℕ)] : ℕ) : ℤ) →
      chunkEndIdx ((List.length [(0 : ℕ)] : ℕ) : ℤ) 0 startIdx ≤ startIdx ∧
      chunkEndIdx ((List.length [(0 : ℕ)] : ℕ) : ℤ) 0 startIdx <
        ((List.length [(0 : ℕ)] : ℕ) : ℤ)) ∧
    ∀ fuel : ℕ, ChunkEvent.complete ∉ processChunked [(0 : ℕ)] 0 fuel :=
  claimC10_theorem [0] 0 (by norm_num) (by simp)

/-- Claim C7, counterexample: with `items = [0]` and `chunkSize = 0` the first
two `onProgress` calls both report `0`, so the progress counts are not
strictly increasing (and completion is never reached). -/
theorem claimC7_counterexample :
    progressValues (processChunked [(0 : ℕ)] 0 2) = [0, 0] ∧
    ¬ List.Chain' (· < ·)
      (progressValues (processChunked [(0 : ℕ)] 0 2)) := by
  constructor
  · norm_num [processChunked, runChunks, chunkEndIdx, progressValues]
  · norm_num [processChunked, runChunks, chunkEndIdx, progressValues]

/-- Claim C7 (amended to `chunkSize ≥ 1`): for every items array, every
`chunkSize ≥ 1` and enough fuel, empty input yields exactly one `onComplete`
and no progress callback; otherwise `onProgress` is called exactly
`⌈items.length / chunkSize⌉` times with strictly increasing cumulative
counts whose last value is `items.length`, followed by exactly one
`onComplete`. -/
theorem claimC7_theorem {α : Type} (items : List α) (chunkSize : ℤ)
    (hc : 1 ≤ chunkSize) (fuel : ℕ) (hf : items.length ≤ fuel) :
    (items = [] → processChunked items chunkSize fuel =
      [ChunkEvent.complete]) ∧
    (items ≠ [] → ∃ ps : List ℤ,
      processChunked items chunkSize fuel =
        ps.map ChunkEvent.progress ++ [ChunkEvent.complete] ∧
      List.Chain' (· < ·) ps ∧
      ps.getLast? = some (items.length : ℤ) ∧
      ps.length = (items.length + chunkSize.toNat - 1) / chunkSize.toNat) := by
  constructor
  · intro h
    subst h
    simp [processChunked]
  · intro hne
    have hlen : 0 < items.length := List.length_pos.mpr hne
    obtain ⟨ps, hrun, hchain, hgt, hlast, hlenps⟩ :=
      runChunks_spec (items.length : ℤ) chunkSize hc fuel 0 le_rfl
        (by exact_mod_cast hlen) (by simp; omega)
    refine ⟨ps, ?_, hchain, hlast, ?_⟩
    · simp only [processChunked, if_neg (by omega : ¬items.length = 0)]
      exact hrun
    · simpa using hlenps

/-- Claim C7, witness: `items = [0, 1, 2]`, `chunkSize = 2`: progress trace
`[2, 3]` (that is `⌈3/2⌉ = 2` calls, strictly increasing, ending at `3`),
then completion. -/
theorem claimC7_witness :
    ([(0 : ℕ), 1, 2] = [] → processChunked [(0 : ℕ), 1, 2] 2 3 =
      [ChunkEvent.complete]) ∧
    ([(0 : ℕ), 1, 2] ≠ [] → ∃ ps : List ℤ,
      processChunked [(0 : ℕ), 1, 2] 2 3 =
        ps.map ChunkEvent.progress ++ [ChunkEvent.complete] ∧
      List.Chain' (· < ·) ps ∧
      ps.getLast? = some ((List.length [(0 : ℕ), 1, 2] : ℕ) : ℤ) ∧
      ps.length =
        (List.length [(0 : ℕ), 1, 2] + (2 : ℤ).toNat - 1) / (2 : ℤ).toNat) :=
  claimC7_theorem [0, 1, 2] 2 (by norm_num) 3 (by norm_num)



/-! ## Claim C2: block-sum acceleration agrees with direct summation -/

/-- The final accumulator of `buildBlockSums`' loop over `n` indices starting
at `i` is the accumulated sum of their heights. -/
theorem buildBlockSumsLoop_snd (hc : HeightCache) (est : ℚ) (bs : ℕ) :
    ∀ (n i : ℕ) (sum : ℚ),
      (buildBlockSumsLoop hc est bs n i sum).2 =
        sum + ∑ k in Finset.range n, heightOf hc est (i + k) := by
  intro n
  induction n with
  | zero =>
      intro i sum
      rw [show buildBlockSumsLoop hc est bs 0 i sum = ([], sum) from rfl,
        Finset.range_zero, Finset.sum_empty, add_zero]
  | succ n ih =>
      intro i sum
      have hstep : (buildBlockSumsLoop hc est bs (n + 1) i sum).2 =
          (buildBlockSumsLoop hc est bs n (i + 1)
            (sum + heightOf hc est i)).2 := rfl
      have hsum : ∑ k in Finset.range n, heightOf hc est (i + (k + 1)) =
          ∑ k in Finset.range n, heightOf hc est (i + 1 + k) :=
        Finset.sum_congr rfl fun k _ => by
          rw [show i + (k + 1) = i + 1 + k from by omega]
      rw [hstep, ih (i + 1), Finset.sum_range_succ', hsum,
        show i + 0 = i from rfl]
      ring

/-- The entries pushed by `buildBlockSums`' loop over `n` indices starting at
`i`: one entry for each index `i + k` with `(i + k + 1)` a multiple of the
block size, holding the accumulated prefix sum up to it. -/
theorem buildBlockSumsLoop_fst (hc : HeightCache) (est : ℚ) (bs : ℕ) :
    ∀ (n i : ℕ) (sum : ℚ),
      (buildBlockSumsLoop hc est bs n i sum).1 =
        ((List.range n).filter (fun k => (i + k + 1) % bs = 0)).map
          (fun k => sum + ∑ j in Finset.range (k + 1), heightOf hc est (i + j)) := by
  intro n
  induction n with
  | zero =>
      intro i sum
      rw [show buildBlockSumsLoop hc est bs 0 i sum = ([], sum) from rfl,
        List.range_zero, List.filter_nil, List.map_nil]
  | succ n ih =>
      intro i sum
      have hpred : ((fun k => decide ((i + k + 1) % bs = 0)) ∘ Nat.succ) =
          (fun k => decide ((i + 1 + k + 1) % bs = 0)) := by
        funext k
        simp only [Function.comp_apply, Nat.succ_eq_add_one]
        exact decide_eq_decide.mpr
          (by rw [show i + (k + 1) + 1 = i + 1 + k + 1 from by omega])
      have hfun : ((fun k => sum + ∑ j in Finset.range (k + 1),
            heightOf hc est (i + j)) ∘ Nat.succ) =
          (fun k => (sum + heightOf hc est i) + ∑ j in Finset.range (k + 1),
            heightOf hc est (i + 1 + j)) := by
        funext k
        have hsum : ∑ j in Finset.range (k + 1), heightOf hc est (i + (j + 1)) =
            ∑ j in Finset.range (k + 1), heightOf hc est (i + 1 + j) :=
          Finset.sum_congr rfl fun j _ => by
            rw [show i + (j + 1) = i + 1 + j from by omega]
        simp only [Function.comp_apply, Nat.succ_eq_add_one]
        rw [Finset.sum_range_succ', hsum, show i + 0 = i from rfl]
        ring
      have hstep : (buildBlockSumsLoop hc est bs (n + 1) i sum).1 =
          (if (i + 1) % bs = 0
           then (sum + heightOf hc est i) ::
             (buildBlockSumsLoop hc est bs n (i + 1)
               (sum + heightOf hc est i)).1
           else (buildBlockSumsLoop hc est bs n (i + 1)
             (sum + heightOf hc est i)).1) := rfl
      rw [hstep, ih (i + 1)]
      conv_rhs => rw [List.range_succ_eq_map]
      rw [List.filter_cons]
      by_cases h : (i + 1) % bs = 0
      · rw [if_pos h, if_pos (by simpa using h), List.map_cons,
          List.filter_map, List.map_map, hpred, hfun,
          show (0 : ℕ) + 1 = 1 from rfl, Finset.sum_range_one,
          show i + 0 = i from rfl]
      · rw [if_neg h, if_neg (by simpa using h), List.filter_map,
          List.map_map, hpred, hfun]

theorem range_filter_block (bs : ℕ) (hbs : 1 ≤ bs) :
    ∀ T : ℕ, (List.range T).filter (fun k => (k + 1) % bs = 0) =
      (List.range (T / bs)).map (fun m => (m + 1) * bs - 1) := by
  intro T
  induction T with
  | zero => simp
  | succ T ih =>
      rw [List.range_succ, List.filter_append, ih]
      by_cases h : (T + 1) % bs = 0
      · have hdvd : bs ∣ T + 1 := Nat.dvd_of_mod_eq_zero h
        have hdiv : (T + 1) / bs = T / bs + 1 := by
          rw [Nat.succ_div, if_pos hdvd]
        have hval : (T / bs + 1) * bs - 1 = T := by
          have h1 : (T + 1) / bs * bs = T + 1 := Nat.div_mul_cancel hdvd
          rw [hdiv] at h1
          omega
        rw [hdiv, List.range_succ, List.map_append]
        simp [h, hval]
      · have hnd : ¬ bs ∣ T + 1 := fun hd => h (Nat.mod_eq_zero_of_dvd hd)
        have hdiv : (T + 1) / bs = T / bs := by
          rw [Nat.succ_div, if_neg hnd, add_zero]
        rw [hdiv]
        simp [h]

theorem buildBlockSums_getD (hc : HeightCache) (est : ℚ) (bs T B : ℕ)
    (hbs : 1 ≤ bs) (hB1 : 1 ≤ B) (hBle : B ≤ T / bs) :
    (buildBlockSums hc est T bs).getD (B - 1) 0 =
      ∑ j in Finset.range (B * bs), heightOf hc est j := by
  have hmain : (buildBlockSumsLoop hc est bs T 0 0).1 =
      (List.range (T / bs)).map
        (fun m => ∑ j in Finset.range ((m + 1) * bs), heightOf hc est j) := by
    rw [buildBlockSumsLoop_fst hc est bs T 0 0]
    have hp : (fun k => decide ((0 + k + 1) % bs = 0)) =
        (fun k => decide ((k + 1) % bs = 0)) := by
      funext k
      rw [show 0 + k + 1 = k + 1 from by omega]
    rw [hp, range_filter_block bs hbs T, List.map_map]
    refine List.map_congr_left ?_
    intro m hm
    simp only [Function.comp_apply, zero_add]
    have h1 : (m + 1) * bs - 1 + 1 = (m + 1) * bs :=
      Nat.succ_pred_eq_of_pos (Nat.mul_pos (Nat.succ_pos m) hbs)
    rw [h1]
  have hlen : (buildBlockSumsLoop hc est bs T 0 0).1.length = T / bs := by
    rw [hmain, List.length_map, List.length_range]
  have hidx : B - 1 < (buildBlockSumsLoop hc est bs T 0 0).1.length := by
    omega
  have hget : (buildBlockSumsLoop hc est bs T 0 0).1.getD (B - 1) 0 =
      ∑ j in Finset.range (B * bs), heightOf hc est j := by
    rw [List.getD_eq_getElem?_getD, hmain, List.getElem?_map,
      List.getElem?_range (by omega : B - 1 < T / bs)]
    simp only [Option.map_some', Option.getD_some]
    rw [show B - 1 + 1 = B from by omega]
  unfold buildBlockSums
  by_cases hmod : T % bs ≠ 0
  · rw [if_pos hmod, List.getD_append _ _ _ _ hidx, hget]
  · rw [if_neg hmod, hget]

/-- Claim C2: `getScrollOffsetForIndex` with `blockSums =
buildBlockSums(heightCache, estimate, totalItems, blockSize)` returns exactly
the value of the direct O(index) summation, for every height cache, positive
estimate, blockSize ≥ 1, totalItems ≥ 0, and every `0 ≤ index ≤ totalItems`. -/
theorem claimC2_theorem (hc : HeightCache) (est : ℚ) (hest : 0 < est)
    (bs : ℕ) (hbs : 1 ≤ bs) (T : ℕ) (idx : ℤ) (h0 : 0 ≤ idx)
    (hT : idx ≤ (T : ℤ)) :
    getScrollOffsetForIndex hc est idx (some (buildBlockSums hc est T bs)) bs =
      getScrollOffsetForIndex hc est idx none bs := by
  by_cases hz : idx ≤ 0
  · unfold getScrollOffsetForIndex
    rw [if_pos hz, if_pos hz]
  · simp only [getScrollOffsetForIndex, if_neg hz]
    have hn : idx.toNat ≤ T := by omega
    by_cases hB : 0 < idx.toNat / bs
    · rw [if_pos hB, buildBlockSums_getD hc est bs T (idx.toNat / bs) hbs
        (by omega) (Nat.div_le_div_right hn)]
      rw [Finset.range_eq_Ico]
      exact Finset.sum_Ico_consecutive (heightOf hc est) (Nat.zero_le _)
        (Nat.div_mul_le_self idx.toNat bs)
    · have hB0 : idx.toNat / bs = 0 := Nat.le_zero.mp (Nat.not_lt.mp hB)
      rw [if_neg hB, zero_add, hB0, zero_mul, ← Finset.range_eq_Ico]

/-- Claim C2, witness: cache `{0 ↦ 10, 2 ↦ 7}`, estimate 40, blockSize 2,
totalItems 5, index 5: both paths yield 137. -/
theorem claimC2_witness :
    getScrollOffsetForIndex [(0, 10), (2, 7)] 40 5
        (some (buildBlockSums [(0, 10), (2, 7)] 40 5 2)) 2 =
      getScrollOffsetForIndex [(0, 10), (2, 7)] 40 5 none 2 :=
  claimC2_theorem [(0, 10), (2, 7)] 40 (by norm_num) 2 (by norm_num) 5 5
    (by norm_num) (by norm_num)


end SvelteVirtualList
